import Mathlib

/-!
Shallow embedding of the path-sandboxing and file-operation layer plus the
share-link lifecycle manager of the network file manager in src/server.js.

Conventions of the embedding:
* Node string/path primitives (decodeURIComponent, path.resolve, path.join,
  path.basename, path.extname, String.prototype.startsWith) are re-implemented
  for the POSIX separator over explicit character lists, with structural
  recursion so that every definition evaluates.
* The file system is external state; handlers take it as explicit predicate
  or map arguments (existence, directory/file type, name-to-content maps).
* JavaScript Date values become Nat millisecond timestamps.
* Each HTTP handler becomes a pure function from its inputs to a result
  inductive; a companion status function maps results to the res.status
  codes that the handler sends (res.json and res.download default to 200).
-/

-- ### Basic string helpers over character lists

/-- Boolean test that the list cs begins with the list ps. -/
def leadsWith : List Char → List Char → Bool
  | [], _ => true
  | _ :: _, [] => false
  | p :: ps, c :: cs => p == c && leadsWith ps cs

/-- Embedding of the JavaScript startsWith test used by the server:
s.startsWith(pre). -/
def strStartsWith (s pre : String) : Bool :=
  leadsWith pre.data s.data

/-- Split a character list at every slash character (the POSIX separator). -/
def splitOnSlashAux : List Char → List Char → List (List Char)
  | [], acc => [acc.reverse]
  | c :: rest, acc =>
    if c = '/' then acc.reverse :: splitOnSlashAux rest []
    else splitOnSlashAux rest (c :: acc)

-- ### decodeURIComponent

/-- Value of a hexadecimal digit character, or none. -/
def hexDigitVal (c : Char) : Option Nat :=
  if '0' ≤ c ∧ c ≤ '9' then some (c.toNat - '0'.toNat)
  else if 'a' ≤ c ∧ c ≤ 'f' then some (c.toNat - 'a'.toNat + 10)
  else if 'A' ≤ c ∧ c ≤ 'F' then some (c.toNat - 'A'.toNat + 10)
  else none

/-- UTF-8 byte sequence of one character (bytes as Nat). -/
def encodeCharUtf8 (c : Char) : List Nat :=
  let n := c.toNat
  if n < 128 then [n]
  else if n < 2048 then [192 + n / 64, 128 + n % 64]
  else if n < 65536 then [224 + n / 4096, 128 + n / 64 % 64, 128 + n % 64]
  else [240 + n / 262144, 128 + n / 4096 % 64, 128 + n / 64 % 64, 128 + n % 64]

/-- Is the byte a UTF-8 continuation byte. -/
def isContByte (b : Nat) : Bool :=
  decide (128 ≤ b) && decide (b < 192)

/-- Decode a UTF-8 byte list to characters; none on any malformed sequence
(stray continuation byte, truncated sequence, overlong form, surrogate or
out-of-range code point), matching the URIError cases of decodeURIComponent. -/
def utf8DecodeList : List Nat → Option (List Char)
  | [] => some []
  | b :: rest =>
    if b < 128 then
      match utf8DecodeList rest with
      | none => none
      | some cs => some (Char.ofNat b :: cs)
    else if b < 192 then none
    else if b < 224 then
      match rest with
      | [] => none
      | b1 :: rest1 =>
        if isContByte b1 then
          let cp := (b - 192) * 64 + (b1 - 128)
          if cp < 128 then none
          else
            match utf8DecodeList rest1 with
            | none => none
            | some cs => some (Char.ofNat cp :: cs)
        else none
    else if b < 240 then
      match rest with
      | b1 :: b2 :: rest2 =>
        if isContByte b1 && isContByte b2 then
          let cp := (b - 224) * 4096 + (b1 - 128) * 64 + (b2 - 128)
          if cp < 2048 ∨ (55296 ≤ cp ∧ cp < 57344) then none
          else
            match utf8DecodeList rest2 with
            | none => none
            | some cs => some (Char.ofNat cp :: cs)
        else none
      | _ => none
    else if b < 248 then
      match rest with
      | b1 :: b2 :: b3 :: rest3 =>
        if isContByte b1 && isContByte b2 && isContByte b3 then
          let cp := (b - 240) * 262144 + (b1 - 128) * 4096
                      + (b2 - 128) * 64 + (b3 - 128)
          if cp < 65536 ∨ 1114111 < cp then none
          else
            match utf8DecodeList rest3 with
            | none => none
            | some cs => some (Char.ofNat cp :: cs)
        else none
      | _ => none
    else none

/-- Replace every percent escape by its byte and pass other characters
through as their UTF-8 bytes; none when a percent sign is not followed by
two hexadecimal digits. -/
def percentDecodeChars : List Char → Option (List Nat)
  | [] => some []
  | '%' :: c1 :: c2 :: rest =>
    match hexDigitVal c1, hexDigitVal c2 with
    | some h1, some h2 =>
      match percentDecodeChars rest with
      | some bs => some ((h1 * 16 + h2) :: bs)
      | none => none
    | _, _ => none
  | '%' :: _ :: [] => none
  | ['%'] => none
  | c :: rest =>
    match percentDecodeChars rest with
    | some bs => some (encodeCharUtf8 c ++ bs)
    | none => none

/-- Embedding of JavaScript decodeURIComponent: percent-decode to bytes then
decode the bytes as UTF-8; none models a thrown URIError. -/
def decodeURIComponent (s : String) : Option String :=
  match percentDecodeChars s.data with
  | none => none
  | some bytes =>
    match utf8DecodeList bytes with
    | none => none
    | some cs => some ⟨cs⟩

-- ### Node path primitives (POSIX)

/-- Normalize a segment list: drop empty and dot segments, let a dot-dot
segment discard the segment before it (at the absolute root it is dropped),
as Node path.resolve does lexically. -/
def normalizeSegs (segs : List (List Char)) : List (List Char) :=
  segs.foldl
    (fun acc seg =>
      if seg = [] ∨ seg = ['.'] then acc
      else if seg = ['.', '.'] then acc.dropLast
      else acc ++ [seg])
    []

/-- Rebuild an absolute path string from normalized segments. -/
def joinAbs : List (List Char) → String
  | [] => "/"
  | segs => ⟨segs.foldl (fun acc seg => acc ++ '/' :: seg) []⟩

/-- Embedding of Node path.resolve(root, suffix) on POSIX where root is an
absolute path: an absolute suffix stands alone, otherwise it is joined onto
root; the result is lexically normalized. -/
def pathResolve (root suffix : String) : String :=
  joinAbs (normalizeSegs (splitOnSlashAux
    (if strStartsWith suffix "/" then suffix.data
     else root.data ++ '/' :: suffix.data) []))

/-- Embedding of Node path.join(dir, name) for a separator-free name and an
already normalized dir: concatenation with one separator. -/
def joinPath (dir name : String) : String :=
  if strStartsWith dir "/" ∧ dir.data.getLast? = some '/' then dir ++ name
  else dir ++ "/" ++ name

/-- Embedding of Node path.basename: the part after the last separator, with
trailing separators ignored. -/
def basenameStr (s : String) : String :=
  ⟨((s.data.reverse.dropWhile (fun c => c = '/')).takeWhile
      (fun c => c ≠ '/')).reverse⟩

-- ### getSafePath (src/server.js lines 57-75)

/-- Embedding of getSafePath: URL-decode the suffix (a decode error yields
none), resolve it against the storage root, and accept only a result that is
the root itself or extends the root followed by the separator. -/
def getSafePath (root relativePathSuffix : String) : Option String :=
  match decodeURIComponent relativePathSuffix with
  | none => none
  | some decodedSuffix =>
    if strStartsWith (pathResolve root decodedSuffix) (root ++ "/") = false
        ∧ pathResolve root decodedSuffix ≠ root then
      none
    else
      some (pathResolve root decodedSuffix)

/-- C1: whenever getSafePath returns a path rather than rejecting, that path
equals the storage root or its string form begins with the storage root
followed by the path separator; consequently every suffix whose resolution
would escape the root (in particular via dot-dot segments) is rejected. -/
theorem getSafePath_sandbox (root suffix p : String)
    (h : getSafePath root suffix = some p) :
    p = root ∨ strStartsWith p (root ++ "/") = true := by
  unfold getSafePath at h
  split at h
  · exact absurd h (by simp)
  · split at h
    · exact absurd h (by simp)
    · rename_i d hd hc
      injection h with hp
      subst hp
      rcases not_and_or.mp hc with h1 | h2
      · right
        simpa using h1
      · left
        simpa using h2

/-- C1 witness: a concrete accepted suffix lands strictly inside the root. -/
theorem getSafePath_sandbox_witness :
    "/data/docs" = "/data" ∨ strStartsWith "/data/docs" ("/data" ++ "/") = true :=
  getSafePath_sandbox "/data" "docs" "/data/docs" (by decide)

-- ### Filename sanitization helpers

/-- Characters the server strips from file and directory names (the
character class of the sanitizing regular expression). -/
def illegalNameChar (c : Char) : Bool :=
  c == '/' || c == '\\' || c == '?' || c == '%' || c == '*' ||
  c == ':' || c == '|' || c == '\"' || c == '<' || c == '>'

/-- Embedding of name.replace of the illegal-character class by an
underscore placeholder. -/
def replaceIllegal (s : String) : String :=
  ⟨s.data.map (fun c => if illegalNameChar c then '_' else c)⟩

/-- Does the character list consist of one or more dots (the anchored
dots-only regular expression of the mkdir handler). -/
def isAllDots (cs : List Char) : Bool :=
  decide (cs ≠ []) && cs.all (fun c => c == '.')

/-- Embedding of the mkdir name sanitization: replace illegal characters by
an underscore, then replace a name made only of dots by one underscore. -/
def sanitizeDirName (s : String) : String :=
  if isAllDots (replaceIllegal s).data then "_" else replaceIllegal s

/-- Embedding of Node path.extname for a separator-free name: the part from
the last dot on, empty when there is no dot, when the dot is the first
character, or when the name is a dot or a dot-dot. -/
def extnameStr (s : String) : String :=
  if s = "." ∨ s = ".." then ""
  else
    if (s.data.reverse.takeWhile (fun c => c ≠ '.')).length = s.data.length
    then ""
    else
      if s.data.length - (s.data.reverse.takeWhile (fun c => c ≠ '.')).length - 1 = 0
      then ""
      else ⟨s.data.drop (s.data.length - (s.data.reverse.takeWhile (fun c => c ≠ '.')).length - 1)⟩

/-- Boolean test that the string s ends with the string e. -/
def strEndsWith (s e : String) : Bool :=
  leadsWith e.data.reverse s.data.reverse

/-- Embedding of Node path.basename(s, ext) for a separator-free s: strip
the extension when it is a proper suffix. -/
def basenameWithExt (s ext : String) : String :=
  if ext ≠ "" ∧ strEndsWith s ext = true ∧ s ≠ ext then
    ⟨s.data.take (s.data.length - ext.data.length)⟩
  else s

-- ### Browse handler (src/server.js lines 132-183)

/-- Outcome of GET /api/browse/:subpath. The 200 body (the sorted listing)
is outside the verified claims; the constructor records the resolved path. -/
inductive BrowseResult where
  | pathNotFound
  | notADirectory
  | listingOk (currentPath : String)
deriving DecidableEq

/-- HTTP status sent for each browse outcome. -/
def browseStatus : BrowseResult → Nat
  | .pathNotFound => 404
  | .notADirectory => 400
  | .listingOk _ => 200

/-- Embedding of the browse handler: a rejected or non-existing path is
reported as path-not-found, a non-directory as a bad request. -/
def browseHandler (root subpath : String) (fsExists fsIsDir : String → Bool) :
    BrowseResult :=
  match getSafePath root subpath with
  | none => .pathNotFound
  | some currentPath =>
    if fsExists currentPath = false then .pathNotFound
    else if fsIsDir currentPath = false then .notADirectory
    else .listingOk currentPath

-- ### Download handler (src/server.js lines 203-244)

/-- Outcome of GET /download/:filepath. -/
inductive DownloadResult where
  | invalidPath
  | fileNotFound
  | notAFile
  | sent (absPath filename : String)
deriving DecidableEq

/-- HTTP status sent for each download outcome. -/
def downloadStatus : DownloadResult → Nat
  | .invalidPath => 400
  | .fileNotFound => 404
  | .notAFile => 400
  | .sent _ _ => 200

/-- Embedding of the download handler. -/
def downloadHandler (root filepath : String) (fsExists fsIsFile : String → Bool) :
    DownloadResult :=
  match getSafePath root filepath with
  | none => .invalidPath
  | some safeFullPath =>
    if fsExists safeFullPath = false then .fileNotFound
    else if fsIsFile safeFullPath = false then .notAFile
    else .sent safeFullPath (basenameStr safeFullPath)

-- ### Mkdir handler (src/server.js lines 247-277)

/-- Outcome of POST /api/mkdir. -/
inductive MkdirResult where
  | missingName
  | invalidName
  | invalidParent
  | conflict
  | created (newDirPath : String)
deriving DecidableEq

/-- HTTP status sent for each mkdir outcome. -/
def mkdirStatus : MkdirResult → Nat
  | .missingName => 400
  | .invalidName => 400
  | .invalidParent => 400
  | .conflict => 409
  | .created _ => 200

/-- Embedding of the mkdir handler; a missing dir_name field is modelled as
the empty string (both are falsy in the source). -/
def mkdirHandler (root parent_path dir_name : String)
    (fsExists fsIsDir : String → Bool) : MkdirResult :=
  if dir_name = "" then .missingName
  else
    if sanitizeDirName dir_name = "" ∨ sanitizeDirName dir_name = "."
        ∨ sanitizeDirName dir_name = ".." then .invalidName
    else
      match getSafePath root parent_path with
      | none => .invalidParent
      | some parentDir =>
        if fsExists parentDir = false then .invalidParent
        else if fsIsDir parentDir = false then .invalidParent
        else
          if fsExists (joinPath parentDir (sanitizeDirName dir_name)) = true then
            .conflict
          else .created (joinPath parentDir (sanitizeDirName dir_name))

-- ### Delete handler (src/server.js lines 280-314)

/-- Outcome of POST /api/delete. -/
inductive DeleteResult where
  | missingPath
  | forbiddenRoot
  | invalidPath
  | itemNotFound
  | deleted (absPath : String)
deriving DecidableEq

/-- HTTP status sent for each delete outcome. -/
def deleteStatus : DeleteResult → Nat
  | .missingPath => 400
  | .forbiddenRoot => 403
  | .invalidPath => 400
  | .itemNotFound => 404
  | .deleted _ => 200

/-- Embedding of the delete handler: the root-equality guard is evaluated
before the null check, as in the source. -/
def deleteHandler (root itemPathSuffix : String) (fsExists : String → Bool) :
    DeleteResult :=
  if itemPathSuffix = "" then .missingPath
  else
    if getSafePath root itemPathSuffix = some root then .forbiddenRoot
    else
      match getSafePath root itemPathSuffix with
      | none => .invalidPath
      | some itemFullPath =>
        if fsExists itemFullPath = false then .itemNotFound
        else .deleted itemFullPath

-- ### Save handler (src/server.js lines 520-556)

/-- Outcome of POST /api/save; the saved constructor records the path, the
content written and the text encoding passed to the write. -/
inductive SaveResult where
  | missingParams
  | invalidPath
  | fileNotFound
  | notAFile
  | saved (absPath content encoding : String)
deriving DecidableEq

/-- HTTP status sent for each save outcome. -/
def saveStatus : SaveResult → Nat
  | .missingParams => 400
  | .invalidPath => 400
  | .fileNotFound => 404
  | .notAFile => 400
  | .saved _ _ _ => 200

/-- Embedding of the save handler; an absent or null content field is
modelled by none. -/
def saveHandler (root fileSuffix : String) (content : Option String)
    (fsExists fsIsFile : String → Bool) : SaveResult :=
  match content with
  | none => .missingParams
  | some c =>
    if fileSuffix = "" then .missingParams
    else
      match getSafePath root fileSuffix with
      | none => .invalidPath
      | some fileFullPath =>
        if fsExists fileFullPath = false then .fileNotFound
        else if fsIsFile fileFullPath = false then .notAFile
        else .saved fileFullPath c "utf8"

-- ### Move handler (src/server.js lines 455-517)

/-- Outcome of POST /api/move. -/
inductive MoveResult where
  | missingParams
  | invalidPath
  | sourceNotFound
  | destNotFound
  | destNotDirectory
  | selfMove
  | intoOwnSubtree
  | conflict
  | moved (src finalDestination : String)
deriving DecidableEq

/-- HTTP status sent for each move outcome. -/
def moveStatus : MoveResult → Nat
  | .missingParams => 400
  | .invalidPath => 400
  | .sourceNotFound => 404
  | .destNotFound => 404
  | .destNotDirectory => 400
  | .selfMove => 400
  | .intoOwnSubtree => 400
  | .conflict => 409
  | .moved _ _ => 200

/-- Embedding of the move handler: destination is the directory the item is
moved into; the guards run in source order and fs.move is reached only when
every guard passes (the moved constructor marks that call). -/
def moveHandler (root sourceSuffix destinationSuffix : String)
    (fsExists fsIsDir : String → Bool) : MoveResult :=
  if sourceSuffix = "" then .missingParams
  else
    match getSafePath root sourceSuffix, getSafePath root destinationSuffix with
    | some sourceFullPath, some destinationDirFullPath =>
      if fsExists sourceFullPath = false then .sourceNotFound
      else if fsExists destinationDirFullPath = false then .destNotFound
      else if fsIsDir destinationDirFullPath = false then .destNotDirectory
      else
        if sourceFullPath = joinPath destinationDirFullPath (basenameStr sourceFullPath)
            ∨ sourceFullPath = destinationDirFullPath then .selfMove
        else
          if fsIsDir sourceFullPath = true
              ∧ strStartsWith
                  (joinPath destinationDirFullPath (basenameStr sourceFullPath))
                  (sourceFullPath ++ "/") = true then .intoOwnSubtree
          else
            if fsExists (joinPath destinationDirFullPath (basenameStr sourceFullPath)) = true
            then .conflict
            else .moved sourceFullPath
                   (joinPath destinationDirFullPath (basenameStr sourceFullPath))
    | _, _ => .invalidPath

-- ### Upload pipeline (src/server.js lines 79-126, 186-199)

/-- Embedding of the multer filename callback: sanitize the original name;
when an entry already exists at the sanitized name in the parent directory,
insert the current epoch-millisecond timestamp between base name and
extension. -/
def chooseUploadName (pathHasEntry : String → Bool) (parentDir originalname : String)
    (timestampNow : Nat) : String :=
  if pathHasEntry (joinPath parentDir (replaceIllegal originalname)) = true then
    basenameWithExt (replaceIllegal originalname) (extnameStr (replaceIllegal originalname))
      ++ "_" ++ toString timestampNow
      ++ extnameStr (replaceIllegal originalname)
  else replaceIllegal originalname

/-- Writing the uploaded stream: the destination directory maps the final
full path to the new content and leaves every other path untouched. -/
def uploadStore (files : String → Option String) (finalPath content : String) :
    String → Option String :=
  fun p => if p = finalPath then some content else files p

/-- Outcome of POST /api/upload/:subpath. -/
inductive UploadResult where
  | rejectedDestination
  | stored (dir finalName : String)
deriving DecidableEq

/-- HTTP status sent for each upload outcome (a multer destination error is
turned into a 400 by the route error handler). -/
def uploadStatus : UploadResult → Nat
  | .rejectedDestination => 400
  | .stored _ _ => 200

/-- Embedding of the upload pipeline entry: the multer destination callback
rejects an unsafe subpath before any bytes are written, otherwise the
filename callback picks the final name. -/
def uploadHandler (root subpath : String) (pathHasEntry : String → Bool)
    (originalname : String) (timestampNow : Nat) : UploadResult :=
  match getSafePath root subpath with
  | none => .rejectedDestination
  | some targetDir =>
    .stored targetDir (chooseUploadName pathHasEntry targetDir originalname timestampNow)

-- ### Share-link registry (src/server.js lines 14, 45-47, 320-452)

/-- One registry entry: the stored relative path and the creation time in
epoch milliseconds. -/
structure ShareEntry where
  path : String
  created_at : Nat
deriving DecidableEq

/-- The fixed share expiry window in hours. -/
def SHARE_DURATION_HOURS : Nat := 1

/-- The expiry window in milliseconds. -/
def shareDurationMs : Nat := SHARE_DURATION_HOURS * 60 * 60 * 1000

/-- The expiry test of the handler: now is strictly past creation time plus
the window. -/
def isShareExpired (now : Nat) (e : ShareEntry) : Bool :=
  decide (e.created_at + shareDurationMs < now)

/-- Registry lookup shareLinks[shareId] over the association-list model of
the shareLinks object. -/
def lookupEntry (reg : List (String × ShareEntry)) (id : String) :
    Option ShareEntry :=
  (reg.find? (fun kv => kv.1 == id)).map (fun kv => kv.2)

/-- The 410 body sent for an expired link, mentioning the window length. -/
def shareExpiredMessage : String :=
  "Share link has expired (valid for " ++ toString SHARE_DURATION_HOURS ++ " hour(s))."

/-- Outcome of GET /share/:shareId. -/
inductive ShareAccessResult where
  | linkNotFound
  | expired (body : String)
  | badStoredPath
  | targetMissing
  | targetNotFile
  | served (absPath filename : String)
deriving DecidableEq

/-- HTTP status sent for each share-access outcome. -/
def shareStatus : ShareAccessResult → Nat
  | .linkNotFound => 404
  | .expired _ => 410
  | .badStoredPath => 404
  | .targetMissing => 404
  | .targetNotFile => 404
  | .served _ _ => 200

/-- Embedding of the share-access handler: a miss sweeps every expired entry
out of the registry; a hit checks expiry of that entry alone, then
re-resolves the stored path and re-checks the target, deleting the entry on
each failure; a successful access leaves the registry untouched. Returns the
registry after the request together with the response. -/
def shareAccessHandler (root : String) (reg : List (String × ShareEntry))
    (shareId : String) (now : Nat) (fsExists fsIsFile : String → Bool) :
    List (String × ShareEntry) × ShareAccessResult :=
  match lookupEntry reg shareId with
  | none =>
    (reg.filter (fun kv => !isShareExpired now kv.2), .linkNotFound)
  | some shareInfo =>
    if isShareExpired now shareInfo then
      (reg.filter (fun kv => kv.1 != shareId), .expired shareExpiredMessage)
    else
      match getSafePath root shareInfo.path with
      | none => (reg.filter (fun kv => kv.1 != shareId), .badStoredPath)
      | some safeFullPath =>
        if fsExists safeFullPath = false then
          (reg.filter (fun kv => kv.1 != shareId), .targetMissing)
        else if fsIsFile safeFullPath = false then
          (reg.filter (fun kv => kv.1 != shareId), .targetNotFile)
        else
          (reg, .served safeFullPath (basenameStr safeFullPath))

/-- Outcome of POST /api/share. -/
inductive ShareCreateResult where
  | missingPath
  | invalidPath
  | fileNotFound
  | notAFile
  | created (id : String) (entry : ShareEntry)
deriving DecidableEq

/-- HTTP status sent for each share-creation outcome. -/
def shareCreateStatus : ShareCreateResult → Nat
  | .missingPath => 400
  | .invalidPath => 400
  | .fileNotFound => 404
  | .notAFile => 400
  | .created _ _ => 200

/-- Embedding of the share-creation handler: the entry stores the relative
suffix as sent by the client together with the creation time. -/
def shareCreateHandler (root filePathSuffix : String)
    (fsExists fsIsFile : String → Bool) (newId : String) (now : Nat) :
    ShareCreateResult :=
  if filePathSuffix = "" then .missingPath
  else
    match getSafePath root filePathSuffix with
    | none => .invalidPath
    | some fileFullPath =>
      if fsExists fileFullPath = false then .fileNotFound
      else if fsIsFile fileFullPath = false then .notAFile
      else .created newId ⟨filePathSuffix, now⟩

-- ### Registry lemmas

/-- Removing the entry of an id from the registry makes the id unresolvable. -/
theorem lookupEntry_filter_ne (reg : List (String × ShareEntry)) (id : String) :
    lookupEntry (reg.filter (fun kv => kv.1 != id)) id = none := by
  have hfind : (reg.filter (fun kv => kv.1 != id)).find? (fun kv => kv.1 == id) = none := by
    rw [List.find?_eq_none]
    intro x hx
    have hxf := (List.mem_filter.mp hx).2
    simp only [bne_iff_ne, ne_eq] at hxf
    simp only [beq_iff_eq]
    exact hxf
  unfold lookupEntry
  rw [hfind]
  rfl

/-- On a registry hit, the handler leaves the registry alone or deletes
exactly the entry of the looked-up id, whatever the branch taken. -/
theorem shareAccess_hit_reg (root : String) (reg : List (String × ShareEntry))
    (id : String) (now : Nat) (fe ff : String → Bool) (e : ShareEntry)
    (h : lookupEntry reg id = some e) :
    (shareAccessHandler root reg id now fe ff).1 = reg
    ∨ (shareAccessHandler root reg id now fe ff).1
        = reg.filter (fun kv => kv.1 != id) := by
  unfold shareAccessHandler
  rw [h]
  dsimp only
  split
  · right; rfl
  · split
    · right; rfl
    · split
      · right; rfl
      · split
        · right; rfl
        · left; rfl

/-- C2: the claim that any lookup (hit or miss) sweeps every expired entry
fails on the code: on a hit of an expired id only that entry is deleted, and
another entry that is already past the window survives the call. -/
theorem shareAccess_sweep_not_global_on_hit :
    isShareExpired 7200000 ⟨"f.txt", 0⟩ = true
    ∧ isShareExpired 7200000 ⟨"g.txt", 0⟩ = true
    ∧ (shareAccessHandler "/r" [("a", ⟨"f.txt", 0⟩), ("b", ⟨"g.txt", 0⟩)] "b"
        7200000 (fun _ => true) (fun _ => true)).1 = [("a", ⟨"f.txt", 0⟩)] := by
  decide

/-- C2 (amended): the registry-wide eviction sweep happens exactly on a
lookup miss: when the looked-up id has no entry, the handler removes every
entry past the expiry window, keeps every other entry, and reports 404. -/
theorem shareAccess_miss_sweep (root : String) (reg : List (String × ShareEntry))
    (id : String) (now : Nat) (fe ff : String → Bool)
    (h : lookupEntry reg id = none) :
    shareAccessHandler root reg id now fe ff
      = (reg.filter (fun kv => !isShareExpired now kv.2), .linkNotFound)
    ∧ (∀ kv, kv ∈ reg → isShareExpired now kv.2 = true →
        kv ∉ (shareAccessHandler root reg id now fe ff).1)
    ∧ (∀ kv, kv ∈ reg → isShareExpired now kv.2 = false →
        kv ∈ (shareAccessHandler root reg id now fe ff).1)
    ∧ shareStatus (shareAccessHandler root reg id now fe ff).2 = 404 := by
  have hh : shareAccessHandler root reg id now fe ff
      = (reg.filter (fun kv => !isShareExpired now kv.2), .linkNotFound) := by
    unfold shareAccessHandler
    rw [h]
  refine ⟨hh, ?_, ?_, by rw [hh]; rfl⟩
  · intro kv hmem hexp
    rw [hh]
    intro hin
    have := (List.mem_filter.mp hin).2
    rw [hexp] at this
    exact absurd this (by decide)
  · intro kv hmem hlive
    rw [hh]
    exact List.mem_filter.mpr ⟨hmem, by rw [hlive]; rfl⟩

/-- C2 witness: a miss on an unknown id evicts the expired entry and keeps
the in-window entry. -/
theorem shareAccess_miss_sweep_witness :
    shareAccessHandler "/r" [("a", ⟨"f.txt", 0⟩), ("c", ⟨"h.txt", 7000000⟩)] "zzz"
        7200000 (fun _ => true) (fun _ => true)
      = ([("c", ⟨"h.txt", 7000000⟩)], .linkNotFound) := by
  have hx := (shareAccess_miss_sweep "/r"
      [("a", ⟨"f.txt", 0⟩), ("c", ⟨"h.txt", 7000000⟩)] "zzz" 7200000
      (fun _ => true) (fun _ => true) (by decide)).1
  rw [hx]
  rfl

/-- C6: on a registry hit, an entry whose age strictly exceeds the one-hour
window is deleted and the response is a 410 whose body names the window
length; an in-window entry is never rewritten: the registry after the call
holds only entries that were in it before, and the looked-up id still maps
to the identical entry or has been deleted, so created_at never changes and
access never extends a share's life. -/
theorem shareAccess_hit_expiry (root : String) (reg : List (String × ShareEntry))
    (id : String) (now : Nat) (fe ff : String → Bool) (e : ShareEntry)
    (h : lookupEntry reg id = some e) :
    SHARE_DURATION_HOURS = 1
    ∧ (isShareExpired now e = true →
        shareAccessHandler root reg id now fe ff
          = (reg.filter (fun kv => kv.1 != id), .expired shareExpiredMessage)
        ∧ lookupEntry (shareAccessHandler root reg id now fe ff).1 id = none
        ∧ shareStatus (shareAccessHandler root reg id now fe ff).2 = 410
        ∧ shareExpiredMessage
            = "Share link has expired (valid for "
                ++ toString SHARE_DURATION_HOURS ++ " hour(s)).")
    ∧ (isShareExpired now e = false →
        (∀ kv, kv ∈ (shareAccessHandler root reg id now fe ff).1 → kv ∈ reg)
        ∧ (lookupEntry (shareAccessHandler root reg id now fe ff).1 id = some e
            ∨ lookupEntry (shareAccessHandler root reg id now fe ff).1 id = none)) := by
  refine ⟨rfl, ?_, ?_⟩
  · intro hexp
    have hh : shareAccessHandler root reg id now fe ff
        = (reg.filter (fun kv => kv.1 != id), .expired shareExpiredMessage) := by
      unfold shareAccessHandler
      rw [h]
      dsimp only
      rw [if_pos hexp]
    refine ⟨hh, ?_, by rw [hh]; rfl, rfl⟩
    rw [hh]
    exact lookupEntry_filter_ne reg id
  · intro hlive
    rcases shareAccess_hit_reg root reg id now fe ff e h with hr | hr
    · rw [hr]
      exact ⟨fun kv hkv => hkv, Or.inl h⟩
    · rw [hr]
      refine ⟨fun kv hkv => (List.mem_filter.mp hkv).1, Or.inr ?_⟩
      exact lookupEntry_filter_ne reg id

/-- C6 witness: a concrete expired hit deletes the entry and yields the 410
body. -/
theorem shareAccess_hit_expiry_witness :
    shareAccessHandler "/r" [("a", ⟨"f.txt", 0⟩)] "a" 7200000
        (fun _ => true) (fun _ => true)
      = ([], .expired shareExpiredMessage) := by
  have hx := ((shareAccess_hit_expiry "/r" [("a", ⟨"f.txt", 0⟩)] "a" 7200000
      (fun _ => true) (fun _ => true) ⟨"f.txt", 0⟩ (by decide)).2.1 (by decide)).1
  rw [hx]
  rfl

/-- C10: on a registry hit the handler removes at most the looked-up entry:
every entry of the resulting registry was already present, and every entry
with a different id survives unchanged; no global sweep happens on a hit. -/
theorem shareAccess_hit_frame (root : String) (reg : List (String × ShareEntry))
    (id : String) (now : Nat) (fe ff : String → Bool) (e : ShareEntry)
    (h : lookupEntry reg id = some e) :
    (∀ kv, kv ∈ (shareAccessHandler root reg id now fe ff).1 → kv ∈ reg)
    ∧ (∀ kv, kv ∈ reg → kv.1 ≠ id →
        kv ∈ (shareAccessHandler root reg id now fe ff).1) := by
  rcases shareAccess_hit_reg root reg id now fe ff e h with hr | hr <;> rw [hr]
  · exact ⟨fun kv hkv => hkv, fun kv hkv _ => hkv⟩
  · constructor
    · intro kv hkv
      exact (List.mem_filter.mp hkv).1
    · intro kv hkv hne
      refine List.mem_filter.mpr ⟨hkv, ?_⟩
      simpa [bne_iff_ne] using hne

/-- C10 witness: after a hit on one expired id, a different entry is still in
the registry. -/
theorem shareAccess_hit_frame_witness :
    ("a", (⟨"f.txt", 0⟩ : ShareEntry)) ∈
      (shareAccessHandler "/r" [("a", ⟨"f.txt", 0⟩), ("b", ⟨"g.txt", 0⟩)] "b"
        7200000 (fun _ => true) (fun _ => true)).1 :=
  (shareAccess_hit_frame "/r" [("a", ⟨"f.txt", 0⟩), ("b", ⟨"g.txt", 0⟩)] "b"
      7200000 (fun _ => true) (fun _ => true) ⟨"g.txt", 0⟩ (by decide)).2
    ("a", ⟨"f.txt", 0⟩) (by decide) (by decide)

-- ### Mkdir sanitization lemmas

/-- The sanitized directory name of a nonempty request is never empty, never
a dot and never a dot-dot: a dots-only name was already rewritten to an
underscore, so the 400 check on the sanitized name cannot fire. -/
theorem sanitizeDirName_ne (s : String) (hs : s ≠ "") :
    sanitizeDirName s ≠ "" ∧ sanitizeDirName s ≠ "." ∧ sanitizeDirName s ≠ ".." := by
  unfold sanitizeDirName
  split
  · exact ⟨by decide, by decide, by decide⟩
  · rename_i hnd
    refine ⟨?_, ?_, ?_⟩
    · intro he
      apply hs
      have hd : (replaceIllegal s).data = ("" : String).data := by rw [he]
      unfold replaceIllegal at hd
      simp only [List.map_eq_nil_iff] at hd
      cases hstr : s
      rename_i l
      rw [hstr] at hd
      simp only at hd
      rw [hd]
    · intro he
      apply hnd
      rw [he]
      decide
    · intro he
      apply hnd
      rw [he]
      decide

/-- C3: the 400 rejection the claim announces for a name reducing to a dot
or dot-dot does not happen: a dots-only name is sanitized to an underscore
and the directory is created under that placeholder with status 200. -/
theorem mkdir_dot_name_not_rejected :
    sanitizeDirName "." = "_"
    ∧ mkdirHandler "/data" "" "." (fun p => p == "/data") (fun p => p == "/data")
        = .created "/data/_"
    ∧ mkdirStatus (mkdirHandler "/data" "" "."
        (fun p => p == "/data") (fun p => p == "/data")) = 200 := by
  decide

/-- C3 (amended): mkdir sanitizes the requested name by replacing illegal
characters with an underscore and rewrites a dots-only name to one
underscore, so the sanitized name is never empty, a dot or a dot-dot (the
explicit 400 branch for those shapes is unreachable for a nonempty request);
when an entry already exists at the target the request fails with 409. -/
theorem mkdirHandler_spec (root parent dir_name : String)
    (fe fd : String → Bool) (hn : dir_name ≠ "") :
    sanitizeDirName dir_name ≠ "" ∧ sanitizeDirName dir_name ≠ "."
    ∧ sanitizeDirName dir_name ≠ ".."
    ∧ (∀ parentDir, getSafePath root parent = some parentDir →
        fe parentDir = true → fd parentDir = true →
        fe (joinPath parentDir (sanitizeDirName dir_name)) = true →
        mkdirHandler root parent dir_name fe fd = .conflict)
    ∧ mkdirStatus .conflict = 409 := by
  obtain ⟨h1, h2, h3⟩ := sanitizeDirName_ne dir_name hn
  refine ⟨h1, h2, h3, ?_, rfl⟩
  intro parentDir hp hfe hfd hconf
  unfold mkdirHandler
  rw [if_neg hn, if_neg (by push_neg; exact ⟨h1, h2, h3⟩), hp]
  dsimp only
  rw [if_neg (by simp [hfe]), if_neg (by simp [hfd]), if_pos hconf]

/-- C3 witness: a concrete conflicting mkdir answers 409. -/
theorem mkdirHandler_spec_witness :
    mkdirHandler "/data" "" "photos"
        (fun p => p == "/data" || p == "/data/photos") (fun p => p == "/data")
      = .conflict :=
  (mkdirHandler_spec "/data" "" "photos"
      (fun p => p == "/data" || p == "/data/photos") (fun p => p == "/data")
      (by decide)).2.2.2.1 "/data" (by decide) (by decide) (by decide) (by decide)

-- ### Delete claims

/-- C5 (amended): a delete request with a nonempty path suffix that resolves
to the storage root itself fails with 403 regardless of the contents of the
root, and no delete request ever removes the root; a request with an empty
path suffix is answered 400 for the missing field before resolution. -/
theorem deleteHandler_root_guard (root s : String) (fe : String → Bool)
    (hs : s ≠ "") (hp : getSafePath root s = some root) :
    deleteHandler root s fe = .forbiddenRoot
    ∧ deleteStatus .forbiddenRoot = 403
    ∧ (∀ (s2 : String) (fe2 : String → Bool), deleteHandler root s2 fe2 ≠ .deleted root) := by
  refine ⟨?_, rfl, ?_⟩
  · unfold deleteHandler
    rw [if_neg hs, if_pos hp]
  · intro s2 fe2 hdel
    unfold deleteHandler at hdel
    split at hdel
    · exact absurd hdel (by simp)
    · split at hdel
      · exact absurd hdel (by simp)
      · rename_i hs2 hroot
        split at hdel
        · exact absurd hdel (by simp)
        · rename_i p hg
          split at hdel
          · exact absurd hdel (by simp)
          · injection hdel with hpr
            exact hroot (by rw [hg, hpr])

/-- C5 witness: a dot suffix resolves to the root and is answered 403. -/
theorem deleteHandler_root_guard_witness :
    deleteHandler "/data" "." (fun _ => true) = .forbiddenRoot :=
  (deleteHandler_root_guard "/data" "." (fun _ => true) (by decide) (by decide)).1

/-- C5: the claim quantifies over every request whose path resolves to the
root, but the empty suffix resolves to the root and is answered 400 for the
missing path field, not 403. -/
theorem deleteHandler_empty_suffix_status :
    getSafePath "/data" "" = some "/data"
    ∧ deleteHandler "/data" "" (fun _ => true) = .missingPath
    ∧ deleteStatus (deleteHandler "/data" "" (fun _ => true)) = 400
    ∧ deleteStatus (deleteHandler "/data" "" (fun _ => true)) ≠ 403 := by
  decide

-- ### Move claim

/-- C7: when the source of a move is a directory and the final destination
path (destination directory joined with the source base name) lies strictly
inside the source, the handler answers 400 — through the self-move guard or
the subtree guard, both of which run before fs.move — and no move of the
filesystem is performed. -/
theorem moveHandler_subtree_guard (root ss ds src dstDir : String)
    (fe fd : String → Bool)
    (hss : ss ≠ "")
    (hsrc : getSafePath root ss = some src)
    (hdst : getSafePath root ds = some dstDir)
    (hes : fe src = true) (hed : fe dstDir = true) (hdd : fd dstDir = true)
    (hds : fd src = true)
    (hdesc : strStartsWith (joinPath dstDir (basenameStr src)) (src ++ "/") = true) :
    moveStatus (moveHandler root ss ds fe fd) = 400
    ∧ (∀ a b, moveHandler root ss ds fe fd ≠ .moved a b) := by
  have hres : moveHandler root ss ds fe fd = .selfMove
      ∨ moveHandler root ss ds fe fd = .intoOwnSubtree := by
    unfold moveHandler
    rw [if_neg hss, hsrc, hdst]
    dsimp only
    rw [if_neg (by simp [hes]), if_neg (by simp [hed]), if_neg (by simp [hdd])]
    by_cases hself : src = joinPath dstDir (basenameStr src) ∨ src = dstDir
    · rw [if_pos hself]
      exact Or.inl rfl
    · rw [if_neg hself, if_pos ⟨hds, hdesc⟩]
      exact Or.inr rfl
  rcases hres with hr | hr <;> rw [hr]
  · exact ⟨rfl, fun a b hab => MoveResult.noConfusion hab⟩
  · exact ⟨rfl, fun a b hab => MoveResult.noConfusion hab⟩

/-- C7 witness: moving a directory into its own child directory is a 400. -/
theorem moveHandler_subtree_guard_witness :
    moveStatus (moveHandler "/d" "a" "a/b"
      (fun p => p == "/d/a" || p == "/d/a/b")
      (fun p => p == "/d/a" || p == "/d/a/b")) = 400 :=
  (moveHandler_subtree_guard "/d" "a" "a/b" "/d/a" "/d/a/b"
      (fun p => p == "/d/a" || p == "/d/a/b")
      (fun p => p == "/d/a" || p == "/d/a/b")
      (by decide) (by decide) (by decide) (by decide) (by decide) (by decide)
      (by decide) (by decide)).1

-- ### Save claim

/-- C8: with a safe path and both fields present, saving succeeds exactly
when the target exists and is a regular file, overwriting it with the given
content under the utf8 encoding; an absent target is a 404 and a
non-regular-file target a 400, and in both failure branches no write happens
(the saved outcome is the only one that writes, and it requires an existing
regular file). -/
theorem saveHandler_spec (root s c : String) (fe ff : String → Bool) (p : String)
    (hs : s ≠ "") (hp : getSafePath root s = some p) :
    (fe p = false → saveHandler root s (some c) fe ff = .fileNotFound
      ∧ saveStatus (saveHandler root s (some c) fe ff) = 404)
    ∧ (fe p = true → ff p = false → saveHandler root s (some c) fe ff = .notAFile
      ∧ saveStatus (saveHandler root s (some c) fe ff) = 400)
    ∧ (fe p = true → ff p = true →
        saveHandler root s (some c) fe ff = .saved p c "utf8")
    ∧ (∀ q c2 enc, saveHandler root s (some c) fe ff = .saved q c2 enc →
        fe q = true ∧ ff q = true ∧ enc = "utf8") := by
  have hbase : saveHandler root s (some c) fe ff
      = (if fe p = false then .fileNotFound
         else if ff p = false then .notAFile
         else .saved p c "utf8") := by
    unfold saveHandler
    dsimp only
    rw [if_neg hs, hp]
  refine ⟨?_, ?_, ?_, ?_⟩
  · intro hfe
    rw [hbase, if_pos hfe]
    exact ⟨rfl, rfl⟩
  · intro hfe hff
    rw [hbase, if_neg (by simp [hfe]), if_pos hff]
    exact ⟨rfl, rfl⟩
  · intro hfe hff
    rw [hbase, if_neg (by simp [hfe]), if_neg (by simp [hff])]
  · intro q c2 enc hsv
    rw [hbase] at hsv
    by_cases hfe : fe p = false
    · rw [if_pos hfe] at hsv
      exact absurd hsv (by simp)
    · rw [if_neg hfe] at hsv
      by_cases hff : ff p = false
      · rw [if_pos hff] at hsv
        exact absurd hsv (by simp)
      · rw [if_neg hff] at hsv
        injection hsv with hq hc henc
        subst hq
        refine ⟨?_, ?_, henc.symm⟩
        · cases hb : fe p
          · exact absurd hb hfe
          · rfl
        · cases hb : ff p
          · exact absurd hb hff
          · rfl

/-- C8 witness: saving onto an existing regular file overwrites it with the
utf8 encoding. -/
theorem saveHandler_spec_witness :
    saveHandler "/r" "f.txt" (some "hello")
        (fun p => p == "/r/f.txt") (fun p => p == "/r/f.txt")
      = .saved "/r/f.txt" "hello" "utf8" :=
  (saveHandler_spec "/r" "f.txt" "hello"
      (fun p => p == "/r/f.txt") (fun p => p == "/r/f.txt") "/r/f.txt"
      (by decide) (by decide)).2.2.1 (by decide) (by decide)

-- ### Upload collision lemmas

/-- joinPath with a fixed directory separates names of different lengths. -/
theorem joinPath_ne_of_len (d a b : String) (h : a.length ≠ b.length) :
    joinPath d a ≠ joinPath d b := by
  unfold joinPath
  split
  · intro he
    have hl := congrArg String.length he
    simp only [String.length_append] at hl
    exact h (by omega)
  · intro he
    have hl := congrArg String.length he
    simp only [String.length_append] at hl
    exact h (by omega)

/-- Stripping the computed extension never shortens a name below its length
minus the extension length. -/
theorem basenameWithExt_len (s e : String) :
    s.length ≤ (basenameWithExt s e).length + e.length := by
  unfold basenameWithExt
  split
  · show s.length ≤ (s.data.take (s.data.length - e.data.length)).length + e.length
    rw [List.length_take]
    have h1 : s.length = s.data.length := rfl
    have h2 : e.length = e.data.length := rfl
    rw [h1, h2]
    omega
  · exact Nat.le_add_right _ _

/-- C9: when the sanitized upload name collides with an existing entry of
the destination directory, the chosen final name is the base name, an
underscore, the epoch-millisecond timestamp and the extension; storing the
upload under that name leaves the pre-existing file with its old content
and puts the new content at the renamed path. -/
theorem chooseUploadName_collision (files : String → Option String)
    (parentDir original : String) (ts : Nat) (content oldContent : String)
    (hcol : files (joinPath parentDir (replaceIllegal original)) = some oldContent) :
    chooseUploadName (fun q => (files q).isSome) parentDir original ts
      = basenameWithExt (replaceIllegal original) (extnameStr (replaceIllegal original))
        ++ "_" ++ toString ts ++ extnameStr (replaceIllegal original)
    ∧ uploadStore files
        (joinPath parentDir (chooseUploadName (fun q => (files q).isSome) parentDir original ts))
        content (joinPath parentDir (replaceIllegal original)) = some oldContent
    ∧ uploadStore files
        (joinPath parentDir (chooseUploadName (fun q => (files q).isSome) parentDir original ts))
        content (joinPath parentDir (chooseUploadName (fun q => (files q).isSome) parentDir original ts))
      = some content := by
  have hchoose : chooseUploadName (fun q => (files q).isSome) parentDir original ts
      = basenameWithExt (replaceIllegal original) (extnameStr (replaceIllegal original))
        ++ "_" ++ toString ts ++ extnameStr (replaceIllegal original) := by
    unfold chooseUploadName
    rw [if_pos (by show (files _).isSome = true; rw [hcol]; rfl)]
  have hlen : (basenameWithExt (replaceIllegal original) (extnameStr (replaceIllegal original))
      ++ "_" ++ toString ts ++ extnameStr (replaceIllegal original)).length
      ≠ (replaceIllegal original).length := by
    have h1 := basenameWithExt_len (replaceIllegal original) (extnameStr (replaceIllegal original))
    have h2 : ("_" : String).length = 1 := rfl
    simp only [String.length_append]
    omega
  have hne : joinPath parentDir
        (basenameWithExt (replaceIllegal original) (extnameStr (replaceIllegal original))
          ++ "_" ++ toString ts ++ extnameStr (replaceIllegal original))
      ≠ joinPath parentDir (replaceIllegal original) :=
    joinPath_ne_of_len _ _ _ hlen
  refine ⟨hchoose, ?_, ?_⟩
  · rw [hchoose]
    unfold uploadStore
    rw [if_neg (fun hh => hne hh.symm)]
    exact hcol
  · rw [hchoose]
    unfold uploadStore
    rw [if_pos rfl]

/-- Fixture for the C9 witness: a directory that already holds a.txt. -/
def collisionFiles : String → Option String :=
  fun q => if q = "/d/a.txt" then some "old" else none

/-- C9 witness: uploading a second a.txt at timestamp 99 stores it as
a_99.txt. -/
theorem chooseUploadName_collision_witness :
    chooseUploadName (fun q => (collisionFiles q).isSome) "/d" "a.txt" 99
      = "a_99.txt" := by
  have hx := (chooseUploadName_collision collisionFiles "/d" "a.txt" 99
      "new" "old" (by decide)).1
  rw [hx]
  rfl

-- ### Status contract for rejected paths

/-- C4: the claim that browse answers 400 on a sandbox-rejected subpath
fails on the code: the browse handler folds the rejection into its
path-not-found branch and answers 404. -/
theorem browseHandler_unsafe_status :
    getSafePath "/data" ".." = none
    ∧ browseStatus (browseHandler "/data" ".." (fun _ => true) (fun _ => true)) = 404
    ∧ browseStatus (browseHandler "/data" ".." (fun _ => true) (fun _ => true)) ≠ 400 := by
  decide

/-- C4 (amended): a client-supplied path that fails the sandbox check yields
HTTP 400 on every path-taking endpoint except browse: download, mkdir,
delete, share creation, move (in either position), save and upload all
answer 400, while browse answers 404 for the rejected path. -/
theorem unsafePath_status (root s dir_name ds ss2 original newId : String)
    (content : Option String) (fe fd ff pathHasEntry : String → Bool)
    (now ts : Nat)
    (h : getSafePath root s = none) :
    browseStatus (browseHandler root s fe fd) = 404
    ∧ downloadStatus (downloadHandler root s fe ff) = 400
    ∧ mkdirStatus (mkdirHandler root s dir_name fe fd) = 400
    ∧ deleteStatus (deleteHandler root s fe) = 400
    ∧ shareCreateStatus (shareCreateHandler root s fe ff newId now) = 400
    ∧ moveStatus (moveHandler root s ds fe fd) = 400
    ∧ moveStatus (moveHandler root ss2 s fe fd) = 400
    ∧ saveStatus (saveHandler root s content fe ff) = 400
    ∧ uploadStatus (uploadHandler root s pathHasEntry original ts) = 400 := by
  refine ⟨?_, ?_, ?_, ?_, ?_, ?_, ?_, ?_, ?_⟩
  · unfold browseHandler
    rw [h]
    rfl
  · unfold downloadHandler
    rw [h]
    rfl
  · unfold mkdirHandler
    split
    · rfl
    · split
      · rfl
      · rw [h]
        rfl
  · unfold deleteHandler
    split
    · rfl
    · rw [if_neg (by simp [h]), h]
      rfl
  · unfold shareCreateHandler
    split
    · rfl
    · rw [h]
      rfl
  · unfold moveHandler
    split
    · rfl
    · rw [h]
      rfl
  · unfold moveHandler
    split
    · rfl
    · cases hg : getSafePath root ss2 <;> rw [h] <;> rfl
  · unfold saveHandler
    cases content with
    | none => rfl
    | some c =>
      dsimp only
      split
      · rfl
      · rw [h]
        rfl
  · unfold uploadHandler
    rw [h]
    rfl

/-- C4 witness: a concrete rejected path is a 400 on the download endpoint. -/
theorem unsafePath_status_witness :
    downloadStatus (downloadHandler "/data" ".."
      (fun _ => true) (fun _ => true)) = 400 :=
  (unsafePath_status "/data" ".." "x" "" "" "a.txt" "id" (some "c")
      (fun _ => true) (fun _ => true) (fun _ => true) (fun _ => true)
      0 0 (by decide)).2.1
